import Mathlib

/-!
Shallow embedding of the `jammer` repository (Python) for verification.

Sources embedded:
  * `src/jammer/channel_hopper.py` (class `ChannelHopper`, the package version) — `CH.*`
  * `src/channel_hopper.py` (the standalone `ChannelHopper`) — `SCH.*`
  * `src/jammer/jammer.py` (class `Jammer`) — `J.*`
  * `src/jammer/utils.py` (`WIFI_CHANNELS`, `get_wifi_channels`, `validate_frequency`)

Modelling conventions:
  * Frequencies are exact: every frequency literal in the source
    (`2.412e9`, `5e6`, ...) is an integer below `2 ^ 53` and hence exactly
    representable as a Python float, so frequencies are `Nat` (in Hz) and the
    float arithmetic of the channel tables is exact `Nat` arithmetic.
  * Durations and sample rates are modelled as `ℚ` (exact arithmetic in place
    of the source's float arithmetic).
  * The random noise buffer is a `List α` over an abstract sample type `α`;
    `np.random.normal`-based generation is an abstract generator
    `gen : Nat → List α` (its values are irrelevant to every claim), and
    `astype(np.complex64)` is an abstract per-sample conversion `c64 : α → α`
    applied pointwise (`List.map`).
  * Python exceptions are an explicit enum `Exc` distinguishing
    `uhd.usrp.UsrpError` from every other `Exception`; where the source may
    raise inside a guarded block, the model takes an oracle telling whether
    (and with which class) the block raises at each loop iteration.
  * Mutation of `self.running` by the signal-handler thread is modelled by an
    external function `running : Nat → Bool` giving the value of the field
    when the loop condition is checked at iteration `i`.
  * Hardware-facing calls (`set_tx_freq`, `set_tx_gain`, `streamer.send`) and
    error logging are recorded as an `Event` trace.
-/

namespace JamSpec

/-- Python exception classes relevant to the source's handlers:
`uhd.usrp.UsrpError` versus any other `Exception`. -/
inductive Exc
  | usrpError
  | other
deriving DecidableEq

/-- Outcome of one iteration of the `hop_channel` try block
(src/jammer/channel_hopper.py lines 109-124), by raise point:
`ok` — no exception, the full body runs; `beforeTune` — an exception is
raised at or before the `set_tx_freq` call (lines 110-114), so no tune
happens; `afterTune` — `set_tx_freq` succeeds but an exception is raised
afterwards, e.g. in `get_tx_freq` or the logging of lines 117-123, before
`current_idx += 1` (line 124, the last statement of the block).  In the
two error cases the exception is caught, logged, and the loop continues
with every attribute unchanged. -/
inductive HopErr
  | ok
  | beforeTune
  | afterTune
deriving DecidableEq

/-- Hardware-facing calls and error-log entries emitted by the model.
A noise buffer is a `List α` over the abstract sample type `α`. -/
inductive Event (α : Type)
  | setTxFreq (freq : Nat)
  | setTxGain (gain : Int) (chan : Nat)
  | send (buf : List α)
  | logError
deriving DecidableEq

/-- Checks whether an event is a `streamer.send` call. -/
def Event.isSend {α : Type} : Event α → Bool
  | Event.send _ => true
  | _ => false

/-- The frequencies passed to `set_tx_freq`, in order, within a trace. -/
def tunedFreqs {α : Type} (evs : List (Event α)) : List Nat :=
  evs.filterMap fun e =>
    match e with
    | Event.setTxFreq f => some f
    | _ => none

/-- The number of `streamer.send` calls in a trace. -/
def sendCount {α : Type} (evs : List (Event α)) : Nat :=
  (evs.filter fun e => e.isSend).length

/-- `self.channels_24 = [2.412e9, 2.437e9, 2.462e9]` (Hz), from
`src/jammer/channel_hopper.py` line 13 (identical literal on
`src/channel_hopper.py` line 9). -/
def channels_24_init : List Nat := [2412000000, 2437000000, 2462000000]

/-- `self.channels_5 = [5.180e9, 5.200e9, 5.745e9]` (Hz), from
`src/jammer/channel_hopper.py` line 14 (identical literal on
`src/channel_hopper.py` line 10). -/
def channels_5_init : List Nat := [5180000000, 5200000000, 5745000000]

/-- The frequency the hop loop computes at hop counter `n`:
`self.channels_24[n % len(self.channels_24)]`. -/
def ch24freq (n : Nat) : Nat :=
  channels_24_init.getD (n % channels_24_init.length) 0

/-- Python `int(x)` on a rational: truncation toward zero. -/
def pyInt (q : ℚ) : ℤ := if 0 ≤ q then ⌊q⌋ else ⌈q⌉

/-! ### Package `ChannelHopper` (src/jammer/channel_hopper.py) -/

/-- The mutable attributes of the package `ChannelHopper` object
(`__init__`, lines 12-24).  `usrp` and `streamer` record whether the
corresponding object attribute holds a device/streamer object (`None`
otherwise); the noise buffer is a `List α`. -/
structure CHState (α : Type) where
  channels_24 : List Nat
  channels_5 : List Nat
  current_idx : Nat
  rate : Nat
  gain : Int
  usrp : Bool
  streamer : Bool
  noise : List α
  running : Bool
deriving DecidableEq

/-- The state after a successful `ChannelHopper.__init__` (which runs
`init_hardware`, setting `usrp` and generating `self.noise =
generate_noise(65536)`); defaults `rate=10e6`, `gain=22`. -/
def CH.initState {α : Type} (gen : Nat → List α) : CHState α :=
  { channels_24 := channels_24_init
    channels_5 := channels_5_init
    current_idx := 0
    rate := 10000000
    gain := 22
    usrp := true
    streamer := false
    noise := gen 65536
    running := false }

/-- `ChannelHopper.__init__` / `init_hardware`: on success the constructed
state; an exception inside `init_hardware` (`hwFail`) is logged
(`Event.logError`) and re-raised (`Except.error`). -/
def CH.init {α : Type} (gen : Nat → List α) (hwFail : Bool) :
    Except Exc (CHState α) × List (Event α) :=
  if hwFail then (Except.error Exc.other, [Event.logError])
  else (Except.ok (CH.initState gen), [])

/-- `ChannelHopper.setup_tx`: configures the TX chain and creates the
streamer; an exception (`fail`) is logged and re-raised. -/
def CH.setup_tx {α : Type} (s : CHState α) (fail : Bool) :
    Except Exc (CHState α) × List (Event α) :=
  if fail then (Except.error Exc.other, [Event.logError])
  else (Except.ok { s with streamer := true }, [Event.setTxGain s.gain 0])

/-- One iteration of the `while self.running` body of
`ChannelHopper.hop_channel` (lines 107-131), by raise point (`HopErr`).
On a normal iteration the target frequency
`self.channels_24[self.current_idx % len(self.channels_24)]` is passed to
`set_tx_freq` and `current_idx` is incremented.  An exception before the
tune is logged and nothing else happens; an exception after a successful
tune (e.g. `get_tx_freq` raising) still emits the `set_tx_freq` call but
leaves `current_idx` unincremented, so the next iteration repeats the
same frequency. -/
def CH.hopBody {α : Type} (s : CHState α) (err : HopErr) : CHState α × List (Event α) :=
  match err with
  | HopErr.beforeTune => (s, [Event.logError])
  | HopErr.afterTune =>
    (s, [Event.setTxFreq (s.channels_24.getD (s.current_idx % s.channels_24.length) 0),
         Event.logError])
  | HopErr.ok =>
    ({ s with current_idx := s.current_idx + 1 },
     [Event.setTxFreq (s.channels_24.getD (s.current_idx % s.channels_24.length) 0)])

/-- `k` iterations of the `hop_channel` loop starting at iteration index `i`
(used to address the per-iteration raise-point oracle `errs`); the loop
checks `self.running` before each iteration. -/
def CH.hopRunAux {α : Type} (errs : Nat → HopErr) : Nat → CHState α → Nat → CHState α × List (Event α)
  | _, s, 0 => (s, [])
  | i, s, k + 1 =>
    if s.running then
      let r1 := CH.hopBody s (errs i)
      let r2 := CH.hopRunAux errs (i + 1) r1.1 k
      (r2.1, r1.2 ++ r2.2)
    else (s, [])

/-- The state in which `ChannelHopper.jam` starts its hop thread and TX loop:
after `self.running = True` and a successful `setup_tx`. -/
def CH.jamStartState {α : Type} (gen : Nat → List α) : CHState α :=
  { CH.initState gen with running := true, streamer := true }

/-- One iteration of the main TX loop of `ChannelHopper.jam` (lines 159-175):
`if self.streamer: self.streamer.send(tx_buffer, metadata)`; any `Exception`
raised by the send (`err`) is logged and the loop continues.  No attribute is
mutated (`transmission_count` is a local). -/
def CH.jamBody {α : Type} (txbuf : List α) (s : CHState α) (err : Option Exc) :
    CHState α × List (Event α) :=
  if s.streamer then
    (s, Event.send txbuf :: (match err with | some _ => [Event.logError] | none => []))
  else (s, [])

/-- `k` iterations of the `jam` TX loop, with the externally mutable
`self.running` field read as `running i` at iteration `i`. -/
def CH.jamLoopAux {α : Type} (txbuf : List α) (running : Nat → Bool) (errs : Nat → Option Exc) :
    Nat → CHState α → Nat → CHState α × List (Event α)
  | _, s, 0 => (s, [])
  | i, s, k + 1 =>
    if running i then
      let r1 := CH.jamBody txbuf s (errs i)
      let r2 := CH.jamLoopAux txbuf running errs (i + 1) r1.1 k
      (r2.1, r1.2 ++ r2.2)
    else (s, [])

/-- The `jam` TX loop: `tx_buffer = self.noise.astype(np.complex64)` is
computed once before the loop and sent on every iteration. -/
def CH.jamLoop {α : Type} (c64 : α → α) (s : CHState α) (running : Nat → Bool)
    (errs : Nat → Option Exc) (k : Nat) : CHState α × List (Event α) :=
  CH.jamLoopAux (s.noise.map c64) running errs 0 s k

/-- `ChannelHopper.cleanup` (lines 212-233): drops the streamer and, if a
USRP device object exists, attempts `set_tx_gain(0, 0)` (wrapped in
`try/except: pass`, so the attempt always happens when `usrp` exists). -/
def CH.cleanup {α : Type} (s : CHState α) : CHState α × List (Event α) :=
  let s1 := if s.streamer then { s with streamer := false } else s
  if s1.usrp then (s1, [Event.setTxGain 0 0]) else (s1, [])

/-- `ChannelHopper.signal_handler` (lines 197-210): sets `running = False`,
joins the hop thread, runs `cleanup`, then `sys.exit(0)`.  The returned `Nat`
is the process exit status. -/
def CH.signal_handler {α : Type} (s : CHState α) : CHState α × List (Event α) × Nat :=
  let s1 := { s with running := false }
  let r := CH.cleanup s1
  (r.1, r.2, 0)

/-! ### Standalone `ChannelHopper` (src/channel_hopper.py) -/

/-- The attributes of the standalone `ChannelHopper` (`__init__`, lines 8-15). -/
structure SCHState (α : Type) where
  channels_24 : List Nat
  channels_5 : List Nat
  current_idx : Nat
  noise : List α
  running : Bool
deriving DecidableEq

/-- The state after the standalone `ChannelHopper.__init__`
(`self.noise = self.generate_noise(65536)`). -/
def SCH.initState {α : Type} (gen : Nat → List α) : SCHState α :=
  { channels_24 := [2412000000, 2437000000, 2462000000]
    channels_5 := [5180000000, 5200000000, 5745000000]
    current_idx := 0
    noise := gen 65536
    running := false }

/-- One iteration of the standalone `hop_channel` body (lines 28-36):
tune `self.channels_24[self.current_idx % len(self.channels_24)]`, then
`self.current_idx += 1` (no exception handling in this version). -/
def SCH.hopBody {α : Type} (s : SCHState α) : SCHState α × List (Event α) :=
  ({ s with current_idx := s.current_idx + 1 },
   [Event.setTxFreq (s.channels_24.getD (s.current_idx % s.channels_24.length) 0)])

/-- `k` iterations of the standalone `hop_channel` loop. -/
def SCH.hopRun {α : Type} : SCHState α → Nat → SCHState α × List (Event α)
  | s, 0 => (s, [])
  | s, k + 1 =>
    if s.running then
      let r1 := SCH.hopBody s
      let r2 := SCH.hopRun r1.1 k
      (r2.1, r1.2 ++ r2.2)
    else (s, [])

/-- The standalone state when the hop thread starts inside `jam`
(`self.running = True`). -/
def SCH.startState {α : Type} (gen : Nat → List α) : SCHState α :=
  { SCH.initState gen with running := true }

/-! ### `Jammer` (src/jammer/jammer.py) -/

/-- The attributes of a `Jammer` object (`__init__`, lines 12-30). -/
structure JState (α : Type) where
  freq : Nat
  rate : ℚ
  gain : Int
  duration : ℚ
  usrp : Bool
  noise : List α
  running : Bool
deriving DecidableEq

/-- The state after a successful `Jammer.__init__`
(`self.noise = self.generate_noise(1024 * 1024)`). -/
def J.initState {α : Type} (gen : Nat → List α) (freq : Nat) (rate duration : ℚ)
    (gain : Int) : JState α :=
  { freq := freq
    rate := rate
    gain := gain
    duration := duration
    usrp := true
    noise := gen (1024 * 1024)
    running := false }

/-- `Jammer.__init__` / `init_usrp`: an exception during USRP initialization
(`fail`, of either class) is logged and re-raised. -/
def J.init {α : Type} (gen : Nat → List α) (freq : Nat) (rate duration : ℚ)
    (gain : Int) (fail : Option Exc) : Except Exc (JState α) × List (Event α) :=
  match fail with
  | some e => (Except.error e, [Event.logError])
  | none => (Except.ok (J.initState gen freq rate duration gain), [])

/-- The `for i in range(transmissions_needed)` loop of `Jammer.transmit`
(lines 128-152), starting from iteration index `i` with `k` iterations left.
Each iteration first checks `self.running` (break when false), then calls
`streamer.send(tx_buffer, metadata)`.  `outcome i` tells whether that send
raises: a `uhd.usrp.UsrpError` is caught, logged, and the loop continues with
the next `i`; any other `Exception` propagates out of the loop, where the
outer handler logs it and re-raises (returned flag `true`). -/
def J.transmitLoopAux {α : Type} (txbuf : List α) (running : Nat → Bool)
    (outcome : Nat → Option Exc) : Nat → Nat → List (Event α) × Bool
  | _, 0 => ([], false)
  | i, k + 1 =>
    if running i then
      match outcome i with
      | some Exc.other => ([Event.send txbuf, Event.logError], true)
      | some Exc.usrpError =>
        let r := J.transmitLoopAux txbuf running outcome (i + 1) k
        (Event.send txbuf :: Event.logError :: r.1, r.2)
      | none =>
        let r := J.transmitLoopAux txbuf running outcome (i + 1) k
        (Event.send txbuf :: r.1, r.2)
    else ([], false)

/-- `transmissions_needed = int(self.duration / buffer_duration)` with
`buffer_duration = num_samps / self.rate` (lines 125-126). -/
def J.transmissions_needed (duration rate : ℚ) (nsamples : Nat) : ℤ :=
  pyInt (duration / ((nsamples : ℚ) / rate))

/-- `Jammer.transmit` (lines 106-163): `tx_buffer` is filled once from
`self.noise` (cast to complex64), then sent `transmissions_needed` times. -/
def J.transmit {α : Type} (c64 : α → α) (s : JState α) (running : Nat → Bool)
    (outcome : Nat → Option Exc) : List (Event α) × Bool :=
  J.transmitLoopAux (s.noise.map c64) running outcome 0
    (J.transmissions_needed s.duration s.rate s.noise.length).toNat

/-- `Jammer.cleanup` (lines 172-180): if the `usrp` attribute exists and is
set, reset the TX gain via `set_tx_gain(0, 0)`. -/
def J.cleanup {α : Type} (s : JState α) : JState α × List (Event α) :=
  if s.usrp then (s, [Event.setTxGain 0 0]) else (s, [])

/-- `Jammer.signal_handler` (lines 165-170): `running = False`, `cleanup`,
`sys.exit(0)`. -/
def J.signal_handler {α : Type} (s : JState α) : JState α × List (Event α) × Nat :=
  let s1 := { s with running := false }
  let r := J.cleanup s1
  (r.1, r.2, 0)

/-! ### Channel tables and validators (src/jammer/utils.py, jammer.py main) -/

/-- The dict key `f"ch{i}"`. -/
def chKey (i : Nat) : String := "ch" ++ toString i

/-- `WIFI_CHANNELS` (utils.py lines 60-66): three merged dict comprehensions,
`range(1, 15)`, `range(36, 65)`, `range(149, 166)`; keys are pairwise
distinct so association-list lookup matches dict lookup. -/
def WIFI_CHANNELS : List (String × Nat) :=
  ((List.range' 1 14).map fun i => (chKey i, 2412000000 + (i - 1) * 5000000))
    ++ ((List.range' 36 29).map fun i => (chKey i, 5180000000 + (i - 36) * 20000000))
    ++ ((List.range' 149 17).map fun i => (chKey i, 5745000000 + (i - 149) * 20000000))

/-- The CLI channel dict in the `__main__` block of jammer.py (lines 212-215). -/
def cli_channels : List (String × Nat) :=
  [("ch1", 2412000000), ("ch6", 2437000000), ("ch11", 2462000000),
   ("ch36", 5180000000), ("ch149", 5745000000)]

/-- `int(k[2:])` for the channel keys, modelled at the character level:
decimal digits after the `ch` prefix (every key in `WIFI_CHANNELS` is of
this form; on other inputs the Python `int` would raise). -/
def chNum (k : String) : Nat :=
  (k.data.drop 2).foldl (fun acc c => acc * 10 + (c.toNat - 48)) 0

/-- `k.startswith('ch')`, modelled at the character level. -/
def startsWithCh (k : String) : Bool := decide (k.data.take 2 = ['c', 'h'])

/-- `get_wifi_channels` (utils.py lines 68-75). -/
def get_wifi_channels (band : String) : List (String × Nat) :=
  if band = "2.4GHz" then
    WIFI_CHANNELS.filter fun kv => startsWithCh kv.1 && decide (chNum kv.1 ≤ 14)
  else if band = "5GHz" then
    WIFI_CHANNELS.filter fun kv => startsWithCh kv.1 && decide (36 ≤ chNum kv.1)
  else WIFI_CHANNELS

/-- The default `bands` dict of `validate_frequency` (utils.py lines 34-38),
in insertion order. -/
def default_bands : List (String × ℚ × ℚ) :=
  [("2.4GHz", (2400000000, 2500000000)), ("5GHz", (5000000000, 6000000000))]

/-- `validate_frequency` with the default bands (utils.py lines 32-44):
returns `(True, band)` for the first band containing `freq`, else
`(False, None)`.  The function is total (it cannot raise). -/
def validate_frequency (freq : ℚ) : Bool × Option String :=
  match default_bands.find? (fun b => decide (b.2.1 ≤ freq ∧ freq ≤ b.2.2)) with
  | some b => (true, some b.1)
  | none => (false, none)

/-! ### Concrete sample states for evaluation -/

/-- A tiny concrete noise generator over `Unit` samples. -/
def genU : Nat → List Unit := fun _ => [(), ()]

/-- A concrete package-hopper state at the start of `jam`. -/
def sampleCH : CHState Unit := CH.jamStartState genU

/-- A concrete raise-point oracle: the first hop iteration raises after a
successful `set_tx_freq` (e.g. `get_tx_freq` fails once), all later
iterations succeed. -/
def sampleHopErrs : Nat → HopErr := fun m => if m = 0 then HopErr.afterTune else HopErr.ok

/-- A concrete `Jammer` state: duration 1 s, rate 10 S/s, 2-sample buffer. -/
def sampleJ : JState Unit := J.initState genU 2437000000 10 1 20


/-! ### Unfolding equations for the loop models -/

theorem CH.hopRunAux_zero {α : Type} (errs : Nat → HopErr) (i : Nat) (s : CHState α) :
    CH.hopRunAux errs i s 0 = (s, []) := rfl

theorem CH.hopRunAux_succ {α : Type} (errs : Nat → HopErr) (i : Nat) (s : CHState α) (k : Nat) :
    CH.hopRunAux errs i s (k + 1)
      = if s.running then
          ((CH.hopRunAux errs (i + 1) (CH.hopBody s (errs i)).1 k).1,
           (CH.hopBody s (errs i)).2 ++ (CH.hopRunAux errs (i + 1) (CH.hopBody s (errs i)).1 k).2)
        else (s, []) := rfl

theorem CH.hopBody_before {α : Type} (s : CHState α) :
    CH.hopBody s HopErr.beforeTune = (s, [Event.logError]) := rfl

theorem CH.hopBody_after {α : Type} (s : CHState α) :
    CH.hopBody s HopErr.afterTune
      = (s, [Event.setTxFreq (s.channels_24.getD (s.current_idx % s.channels_24.length) 0),
             Event.logError]) := rfl

theorem CH.hopBody_ok {α : Type} (s : CHState α) :
    CH.hopBody s HopErr.ok
      = ({ s with current_idx := s.current_idx + 1 },
         [Event.setTxFreq (s.channels_24.getD (s.current_idx % s.channels_24.length) 0)]) := rfl

theorem SCH.hopRun_zero {α : Type} (s : SCHState α) : SCH.hopRun s 0 = (s, []) := rfl

theorem SCH.hopRun_succ {α : Type} (s : SCHState α) (k : Nat) :
    SCH.hopRun s (k + 1)
      = if s.running then
          ((SCH.hopRun (SCH.hopBody s).1 k).1,
           (SCH.hopBody s).2 ++ (SCH.hopRun (SCH.hopBody s).1 k).2)
        else (s, []) := rfl

theorem CH.jamLoopAux_zero {α : Type} (txbuf : List α) (running : Nat → Bool)
    (errs : Nat → Option Exc) (i : Nat) (s : CHState α) :
    CH.jamLoopAux txbuf running errs i s 0 = (s, []) := rfl

theorem CH.jamLoopAux_succ {α : Type} (txbuf : List α) (running : Nat → Bool)
    (errs : Nat → Option Exc) (i : Nat) (s : CHState α) (k : Nat) :
    CH.jamLoopAux txbuf running errs i s (k + 1)
      = if running i then
          ((CH.jamLoopAux txbuf running errs (i + 1) (CH.jamBody txbuf s (errs i)).1 k).1,
           (CH.jamBody txbuf s (errs i)).2
             ++ (CH.jamLoopAux txbuf running errs (i + 1) (CH.jamBody txbuf s (errs i)).1 k).2)
        else (s, []) := rfl

theorem J.transmitLoopAux_zero {α : Type} (txbuf : List α) (running : Nat → Bool)
    (outcome : Nat → Option Exc) (i : Nat) :
    J.transmitLoopAux txbuf running outcome i 0 = ([], false) := rfl

theorem J.transmitLoopAux_succ {α : Type} (txbuf : List α) (running : Nat → Bool)
    (outcome : Nat → Option Exc) (i k : Nat) :
    J.transmitLoopAux txbuf running outcome i (k + 1)
      = if running i then
          match outcome i with
          | some Exc.other => ([Event.send txbuf, Event.logError], true)
          | some Exc.usrpError =>
            (Event.send txbuf :: Event.logError
               :: (J.transmitLoopAux txbuf running outcome (i + 1) k).1,
             (J.transmitLoopAux txbuf running outcome (i + 1) k).2)
          | none =>
            (Event.send txbuf :: (J.transmitLoopAux txbuf running outcome (i + 1) k).1,
             (J.transmitLoopAux txbuf running outcome (i + 1) k).2)
        else ([], false) := rfl

/-! ### Helper lemmas -/

theorem CH.hopRunAux_succ_before {α : Type} (errs : Nat → HopErr) (i : Nat) (s : CHState α)
    (k : Nat) (hrun : s.running = true) (he : errs i = HopErr.beforeTune) :
    CH.hopRunAux errs i s (k + 1)
      = ((CH.hopRunAux errs (i + 1) s k).1,
         [Event.logError] ++ (CH.hopRunAux errs (i + 1) s k).2) := by
  rw [CH.hopRunAux_succ, if_pos hrun, he]; rfl

theorem CH.hopRunAux_succ_after {α : Type} (errs : Nat → HopErr) (i : Nat) (s : CHState α)
    (k : Nat) (hrun : s.running = true) (he : errs i = HopErr.afterTune) :
    CH.hopRunAux errs i s (k + 1)
      = ((CH.hopRunAux errs (i + 1) s k).1,
         [Event.setTxFreq (s.channels_24.getD (s.current_idx % s.channels_24.length) 0),
          Event.logError] ++ (CH.hopRunAux errs (i + 1) s k).2) := by
  rw [CH.hopRunAux_succ, if_pos hrun, he]; rfl

theorem CH.hopRunAux_succ_ok {α : Type} (errs : Nat → HopErr) (i : Nat) (s : CHState α) (k : Nat)
    (hrun : s.running = true) (he : errs i = HopErr.ok) :
    CH.hopRunAux errs i s (k + 1)
      = ((CH.hopRunAux errs (i + 1) { s with current_idx := s.current_idx + 1 } k).1,
         [Event.setTxFreq (s.channels_24.getD (s.current_idx % s.channels_24.length) 0)]
           ++ (CH.hopRunAux errs (i + 1) { s with current_idx := s.current_idx + 1 } k).2) := by
  rw [CH.hopRunAux_succ, if_pos hrun, he]; rfl

theorem SCH.hopRun_succ_run {α : Type} (s : SCHState α) (k : Nat) (hrun : s.running = true) :
    SCH.hopRun s (k + 1)
      = ((SCH.hopRun { s with current_idx := s.current_idx + 1 } k).1,
         [Event.setTxFreq (s.channels_24.getD (s.current_idx % s.channels_24.length) 0)]
           ++ (SCH.hopRun { s with current_idx := s.current_idx + 1 } k).2) := by
  rw [SCH.hopRun_succ, if_pos hrun]; rfl

/-! ### Helper lemmas -/

theorem getD_map_range' (f : Nat → Nat) :
    ∀ (L s n : Nat), n < L → ((List.range' s L).map f).getD n 0 = f (s + n) := by
  intro L
  induction L with
  | zero => intro s n h; exact absurd h (Nat.not_lt_zero n)
  | succ L ih =>
    intro s n h
    cases n with
    | zero => rfl
    | succ n =>
      have h' : n < L := by omega
      have hx := ih (s + 1) n h'
      have harith : s + 1 + n = s + (n + 1) := by omega
      calc ((List.range' s (L + 1)).map f).getD (n + 1) 0
          = ((List.range' (s + 1) L).map f).getD n 0 := rfl
        _ = f (s + 1 + n) := hx
        _ = f (s + (n + 1)) := by rw [harith]

theorem ch24freq_mem (n : Nat) :
    ch24freq n ∈ channels_24_init ∧ ch24freq n ∉ channels_5_init := by
  have h3 : n % 3 = 0 ∨ n % 3 = 1 ∨ n % 3 = 2 := by omega
  unfold ch24freq
  have hl : channels_24_init.length = 3 := rfl
  rw [hl]
  rcases h3 with h | h | h <;> rw [h] <;> decide

theorem tunedFreqs_cons_setTxFreq {α : Type} (f : Nat) (evs : List (Event α)) :
    tunedFreqs (Event.setTxFreq f :: evs) = f :: tunedFreqs evs := rfl

theorem tunedFreqs_append {α : Type} (a b : List (Event α)) :
    tunedFreqs (a ++ b) = tunedFreqs a ++ tunedFreqs b := by
  simp [tunedFreqs, List.filterMap_append]

theorem tunedFreqs_logError_append {α : Type} (evs : List (Event α)) :
    tunedFreqs ([Event.logError] ++ evs) = tunedFreqs evs := by
  rw [tunedFreqs_append]; rfl

theorem tunedFreqs_setTxFreq_append {α : Type} (f : Nat) (evs : List (Event α)) :
    tunedFreqs ([Event.setTxFreq f] ++ evs) = f :: tunedFreqs evs := by
  rw [tunedFreqs_append, tunedFreqs_cons_setTxFreq]; rfl

theorem tunedFreqs_afterTune_append {α : Type} (f : Nat) (evs : List (Event α)) :
    tunedFreqs ([Event.setTxFreq f, Event.logError] ++ evs) = f :: tunedFreqs evs := by
  rw [tunedFreqs_append, tunedFreqs_cons_setTxFreq]; rfl

/-- Invariant of the package hop loop in runs where no hop exception is
caught after a successful `set_tx_freq` (every iteration either completes
or raises before the tune call): all attributes except `current_idx` are
preserved, `current_idx` advances by exactly the number of tuned
frequencies, and the tuned frequencies starting at hop counter `m` are
`channels_24[m % 3], channels_24[(m + 1) % 3], ...`. -/
theorem CH.hopRunAux_spec {α : Type} (errs : Nat → HopErr)
    (hno : ∀ m, errs m ≠ HopErr.afterTune) :
    ∀ (k i : Nat) (s : CHState α),
      s.channels_24 = channels_24_init → s.running = true →
      (CH.hopRunAux errs i s k).1.channels_24 = s.channels_24 ∧
      (CH.hopRunAux errs i s k).1.channels_5 = s.channels_5 ∧
      (CH.hopRunAux errs i s k).1.running = s.running ∧
      (CH.hopRunAux errs i s k).1.noise = s.noise ∧
      (CH.hopRunAux errs i s k).1.current_idx
        = s.current_idx + (tunedFreqs (CH.hopRunAux errs i s k).2).length ∧
      tunedFreqs (CH.hopRunAux errs i s k).2
        = (List.range' s.current_idx
            (tunedFreqs (CH.hopRunAux errs i s k).2).length).map ch24freq := by
  intro k
  induction k with
  | zero =>
    intro i s h24 hrun
    rw [CH.hopRunAux_zero]
    exact ⟨rfl, rfl, rfl, rfl, rfl, rfl⟩
  | succ k ih =>
    intro i s h24 hrun
    cases he : errs i with
    | afterTune => exact absurd he (hno i)
    | beforeTune =>
      rw [CH.hopRunAux_succ_before errs i s k hrun he]
      obtain ⟨a, b, c, d, e, t⟩ := ih (i + 1) s h24 hrun
      rw [tunedFreqs_logError_append]
      exact ⟨a, b, c, d, e, t⟩
    | ok =>
      rw [CH.hopRunAux_succ_ok errs i s k hrun he]
      have hf : s.channels_24.getD (s.current_idx % s.channels_24.length) 0
          = ch24freq s.current_idx := by rw [h24]; rfl
      rw [hf]
      obtain ⟨a, b, c, d, e, t⟩ :=
        ih (i + 1) { s with current_idx := s.current_idx + 1 } h24 hrun
      rw [tunedFreqs_setTxFreq_append]
      refine ⟨a, b, c, d, ?_, ?_⟩
      · dsimp only at e ⊢
        rw [List.length_cons]
        omega
      · dsimp only at t ⊢
        rw [List.length_cons, List.range'_succ, List.map_cons]
        exact congrArg _ t

/-- In every run of the package hop loop — whatever the raise points —
each frequency passed to `set_tx_freq` is `channels_24[m % 3]` for the
value `m` of `current_idx` at that call, hence an element of the
`channels_24` list. -/
theorem CH.hopRunAux_tuned_mem {α : Type} (errs : Nat → HopErr) :
    ∀ (k i : Nat) (s : CHState α),
      s.channels_24 = channels_24_init →
      ∀ f ∈ tunedFreqs (CH.hopRunAux errs i s k).2, ∃ m, f = ch24freq m := by
  intro k
  induction k with
  | zero =>
    intro i s h24 f hf
    rw [CH.hopRunAux_zero] at hf
    exact absurd hf (List.not_mem_nil _)
  | succ k ih =>
    intro i s h24 f hf
    by_cases hrun : s.running = true
    · have hff : s.channels_24.getD (s.current_idx % s.channels_24.length) 0
          = ch24freq s.current_idx := by rw [h24]; rfl
      cases he : errs i with
      | beforeTune =>
        rw [CH.hopRunAux_succ_before errs i s k hrun he, tunedFreqs_logError_append] at hf
        exact ih (i + 1) s h24 f hf
      | afterTune =>
        rw [CH.hopRunAux_succ_after errs i s k hrun he, hff,
          tunedFreqs_afterTune_append] at hf
        rcases List.mem_cons.mp hf with h | h
        · exact ⟨s.current_idx, h⟩
        · exact ih (i + 1) s h24 f h
      | ok =>
        rw [CH.hopRunAux_succ_ok errs i s k hrun he, hff,
          tunedFreqs_setTxFreq_append] at hf
        rcases List.mem_cons.mp hf with h | h
        · exact ⟨s.current_idx, h⟩
        · exact ih (i + 1) { s with current_idx := s.current_idx + 1 } h24 f h
    · rw [CH.hopRunAux_succ, if_neg hrun] at hf
      exact absurd hf (List.not_mem_nil _)

/-- In an exception-free run the package hop loop tunes exactly one
frequency per iteration. -/
theorem CH.hopRunAux_noerr {α : Type} :
    ∀ (k i : Nat) (s : CHState α),
      s.channels_24 = channels_24_init → s.running = true →
      tunedFreqs (CH.hopRunAux (fun _ => HopErr.ok) i s k).2
        = (List.range' s.current_idx k).map ch24freq := by
  intro k
  induction k with
  | zero => intro i s h24 hrun; rw [CH.hopRunAux_zero]; rfl
  | succ k ih =>
    intro i s h24 hrun
    rw [CH.hopRunAux_succ_ok (fun _ => HopErr.ok) i s k hrun rfl]
    have hf : s.channels_24.getD (s.current_idx % s.channels_24.length) 0
        = ch24freq s.current_idx := by rw [h24]; rfl
    rw [hf, tunedFreqs_setTxFreq_append]
    have t := ih (i + 1) { s with current_idx := s.current_idx + 1 } h24 hrun
    dsimp only at t ⊢
    rw [List.range'_succ, List.map_cons]
    exact congrArg _ t

/-- The standalone hop loop tunes exactly one frequency per iteration. -/
theorem SCH.hopRun_spec {α : Type} :
    ∀ (k : Nat) (s : SCHState α),
      s.channels_24 = channels_24_init → s.running = true →
      tunedFreqs (SCH.hopRun s k).2 = (List.range' s.current_idx k).map ch24freq := by
  intro k
  induction k with
  | zero => intro s h24 hrun; rw [SCH.hopRun_zero]; rfl
  | succ k ih =>
    intro s h24 hrun
    rw [SCH.hopRun_succ_run s k hrun]
    have hf : s.channels_24.getD (s.current_idx % s.channels_24.length) 0
        = ch24freq s.current_idx := by rw [h24]; rfl
    rw [hf, tunedFreqs_setTxFreq_append]
    have t := ih { s with current_idx := s.current_idx + 1 } h24 hrun
    dsimp only at t ⊢
    rw [List.range'_succ, List.map_cons]
    exact congrArg _ t

/-- The hop loop never touches the noise buffer, at any raise point. -/
theorem CH.hopRunAux_noise {α : Type} (errs : Nat → HopErr) :
    ∀ (k i : Nat) (s : CHState α), (CH.hopRunAux errs i s k).1.noise = s.noise := by
  intro k
  induction k with
  | zero => intro i s; rw [CH.hopRunAux_zero]
  | succ k ih =>
    intro i s
    rw [CH.hopRunAux_succ]
    by_cases hrun : s.running = true
    · rw [if_pos hrun]
      cases he : errs i with
      | beforeTune => rw [CH.hopBody_before]; exact ih (i + 1) s
      | afterTune => rw [CH.hopBody_after]; exact ih (i + 1) s
      | ok =>
        rw [CH.hopBody_ok]
        exact ih (i + 1) { s with current_idx := s.current_idx + 1 }
    · rw [if_neg hrun]

/-- The body of the `jam` TX loop mutates no attribute. -/
theorem CH.jamBody_state {α : Type} (txbuf : List α) (s : CHState α) (err : Option Exc) :
    (CH.jamBody txbuf s err).1 = s := by
  unfold CH.jamBody
  by_cases hs : s.streamer = true
  · rw [if_pos hs]
  · rw [if_neg hs]

/-- The `jam` TX loop mutates no attribute. -/
theorem CH.jamLoopAux_state {α : Type} (txbuf : List α) (running : Nat → Bool)
    (errs : Nat → Option Exc) :
    ∀ (k i : Nat) (s : CHState α), (CH.jamLoopAux txbuf running errs i s k).1 = s := by
  intro k
  induction k with
  | zero => intro i s; rw [CH.jamLoopAux_zero]
  | succ k ih =>
    intro i s
    rw [CH.jamLoopAux_succ]
    by_cases hr : running i = true
    · rw [if_pos hr, CH.jamBody_state]
      exact ih (i + 1) s
    · rw [if_neg hr]

/-- Every buffer sent by the `jam` TX loop is the `tx_buffer` computed
before the loop. -/
theorem CH.jamLoopAux_send {α : Type} (txbuf : List α) (running : Nat → Bool)
    (errs : Nat → Option Exc) :
    ∀ (k i : Nat) (s : CHState α) (b : List α),
      Event.send b ∈ (CH.jamLoopAux txbuf running errs i s k).2 → b = txbuf := by
  intro k
  induction k with
  | zero =>
    intro i s b hb
    rw [CH.jamLoopAux_zero] at hb
    exact absurd hb (List.not_mem_nil _)
  | succ k ih =>
    intro i s b hb
    rw [CH.jamLoopAux_succ] at hb
    by_cases hr : running i = true
    · rw [if_pos hr] at hb
      rw [CH.jamBody_state] at hb
      rcases List.mem_append.mp hb with h1 | h2
      · unfold CH.jamBody at h1
        by_cases hs : s.streamer = true
        · rw [if_pos hs] at h1
          rcases List.mem_cons.mp h1 with h | h
          · exact Event.send.inj h
          · cases herr : errs i <;> rw [herr] at h <;> simp at h
        · rw [if_neg hs] at h1
          exact absurd h1 (List.not_mem_nil _)
      · exact ih (i + 1) s b h2
    · rw [if_neg hr] at hb
      exact absurd hb (List.not_mem_nil _)

theorem sendCount_nil {α : Type} : sendCount ([] : List (Event α)) = 0 := rfl

theorem sendCount_cons_send {α : Type} (b : List α) (evs : List (Event α)) :
    sendCount (Event.send b :: evs) = sendCount evs + 1 := by
  simp [sendCount, Event.isSend]

theorem sendCount_cons_logError {α : Type} (evs : List (Event α)) :
    sendCount (Event.logError :: evs) = sendCount evs := by
  simp [sendCount, Event.isSend]

/-- The `transmit` loop performs at most one send per remaining iteration. -/
theorem J.transmitLoopAux_count_le {α : Type} (txbuf : List α) (running : Nat → Bool)
    (outcome : Nat → Option Exc) :
    ∀ (k i : Nat), sendCount (J.transmitLoopAux txbuf running outcome i k).1 ≤ k := by
  intro k
  induction k with
  | zero => intro i; rw [J.transmitLoopAux_zero]; exact Nat.le_refl 0
  | succ k ih =>
    intro i
    rw [J.transmitLoopAux_succ]
    by_cases hr : running i = true
    · rw [if_pos hr]
      cases ho : outcome i with
      | none =>
        dsimp only
        rw [sendCount_cons_send]
        exact Nat.succ_le_succ (ih (i + 1))
      | some e =>
        cases e with
        | usrpError =>
          dsimp only
          rw [sendCount_cons_send, sendCount_cons_logError]
          exact Nat.succ_le_succ (ih (i + 1))
        | other =>
          dsimp only
          rw [sendCount_cons_send, sendCount_cons_logError, sendCount_nil]
          omega
    · rw [if_neg hr]; exact Nat.zero_le _

/-- If `self.running` is false at iteration `j`, the `transmit` loop makes
at most `j - i` further sends when started at iteration `i ≤ j`. -/
theorem J.transmitLoopAux_stop {α : Type} (txbuf : List α) (running : Nat → Bool)
    (outcome : Nat → Option Exc) (j : Nat) (hj : running j = false) :
    ∀ (k i : Nat), i ≤ j →
      sendCount (J.transmitLoopAux txbuf running outcome i k).1 ≤ j - i := by
  intro k
  induction k with
  | zero => intro i hij; rw [J.transmitLoopAux_zero]; exact Nat.zero_le _
  | succ k ih =>
    intro i hij
    by_cases hr : running i = true
    · have hne : i ≠ j := by
        intro h
        rw [h, hj] at hr
        exact Bool.noConfusion hr
      have hij' : i + 1 ≤ j := by omega
      rw [J.transmitLoopAux_succ, if_pos hr]
      cases ho : outcome i with
      | none =>
        dsimp only
        rw [sendCount_cons_send]
        have := ih (i + 1) hij'
        omega
      | some e =>
        cases e with
        | usrpError =>
          dsimp only
          rw [sendCount_cons_send, sendCount_cons_logError]
          have := ih (i + 1) hij'
          omega
        | other =>
          dsimp only
          rw [sendCount_cons_send, sendCount_cons_logError, sendCount_nil]
          omega
    · rw [J.transmitLoopAux_succ, if_neg hr]; exact Nat.zero_le _

/-- Every buffer the `transmit` loop passes to `streamer.send` is the
`tx_buffer` computed before the loop. -/
theorem J.transmitLoopAux_send_eq {α : Type} (txbuf : List α) (running : Nat → Bool)
    (outcome : Nat → Option Exc) :
    ∀ (k i : Nat) (b : List α),
      Event.send b ∈ (J.transmitLoopAux txbuf running outcome i k).1 → b = txbuf := by
  intro k
  induction k with
  | zero =>
    intro i b hb
    rw [J.transmitLoopAux_zero] at hb
    exact absurd hb (List.not_mem_nil _)
  | succ k ih =>
    intro i b hb
    rw [J.transmitLoopAux_succ] at hb
    by_cases hr : running i = true
    · rw [if_pos hr] at hb
      cases ho : outcome i with
      | none =>
        rw [ho] at hb
        dsimp only at hb
        rcases List.mem_cons.mp hb with h | h
        · exact Event.send.inj h
        · exact ih (i + 1) b h
      | some e =>
        cases e with
        | usrpError =>
          rw [ho] at hb
          dsimp only at hb
          rcases List.mem_cons.mp hb with h | h
          · exact Event.send.inj h
          · rcases List.mem_cons.mp h with h2 | h2
            · exact absurd h2 (by simp)
            · exact ih (i + 1) b h2
        | other =>
          rw [ho] at hb
          dsimp only at hb
          rcases List.mem_cons.mp hb with h | h
          · exact Event.send.inj h
          · simp at h
    · rw [if_neg hr] at hb
      exact absurd hb (List.not_mem_nil _)

/-! ### Claim theorems -/

/-- C1 counterexample: in the run where the first hop iteration raises
after a successful `set_tx_freq` (e.g. `get_tx_freq` fails once) and the
second succeeds, `hop_channel` passes 2.412 GHz to `set_tx_freq` twice in
a row: the set_tx_freq call at index 1 carries 2.412 GHz, not
`channels_24[1 % 3]` = 2.437 GHz, and after 2 set_tx_freq calls
`current_idx` is 1, not 2 — so the frequency sequence is not
`channels_24[n % 3]` and `current_idx` is not incremented once per
set_tx_freq call. -/
theorem hop_channel_repeats_after_tune_error :
    (tunedFreqs (CH.hopRunAux sampleHopErrs 0 (CH.jamStartState genU) 2).2).getD 1 0
        = 2412000000
      ∧ channels_24_init.getD (1 % 3) 0 = 2437000000
      ∧ (tunedFreqs (CH.hopRunAux sampleHopErrs 0 (CH.jamStartState genU) 2).2).getD 1 0
        ≠ channels_24_init.getD (1 % 3) 0
      ∧ (tunedFreqs (CH.hopRunAux sampleHopErrs 0 (CH.jamStartState genU) 2).2).length = 2
      ∧ (CH.hopRunAux sampleHopErrs 0 (CH.jamStartState genU) 2).1.current_idx = 1 := by
  refine ⟨by decide, by decide, by decide, by decide, by decide⟩

/-- C1 (amended): in every run of `ChannelHopper.hop_channel` in which no
exception is caught between a successful `set_tx_freq` call and the
`current_idx += 1` that follows it — in particular in exception-free runs
and in runs whose caught hop exceptions all occur before the tune call —
the n-th frequency passed to `set_tx_freq` while `running` is true equals
`channels_24[n % 3]` (the sequence cycles through 2.412, 2.437, 2.462 GHz
in that order) and `current_idx` is incremented by exactly 1 per hop, so
after the run it equals the number of `set_tx_freq` calls.  (An exception
caught after the tune leaves `current_idx` unincremented and makes the
next call repeat the same frequency.) -/
theorem hop_channel_cycles (α : Type) (gen : Nat → List α) (errs : Nat → HopErr) (k n : Nat)
    (hno : ∀ m, errs m ≠ HopErr.afterTune)
    (hn : n < (tunedFreqs (CH.hopRunAux errs 0 (CH.jamStartState gen) k).2).length) :
    (tunedFreqs (CH.hopRunAux errs 0 (CH.jamStartState gen) k).2).getD n 0
        = channels_24_init.getD (n % 3) 0
      ∧ (CH.hopRunAux errs 0 (CH.jamStartState gen) k).1.current_idx
        = (tunedFreqs (CH.hopRunAux errs 0 (CH.jamStartState gen) k).2).length := by
  obtain ⟨-, -, -, -, hidx, htr⟩ :=
    CH.hopRunAux_spec errs hno k 0 (CH.jamStartState gen) rfl rfl
  have h0 : (CH.jamStartState gen).current_idx = 0 := rfl
  rw [h0] at hidx htr
  constructor
  · conv_lhs => rw [htr]
    rw [getD_map_range' ch24freq _ 0 n hn, Nat.zero_add]
    rfl
  · rw [hidx]
    exact Nat.zero_add _

/-- C1 witness: a 4-iteration run whose only caught exception occurs
before the tune call tunes 2.412, 2.437, 2.462 GHz and leaves
`current_idx = 3`; the 3rd frequency (index 2) is `channels_24[2 % 3]`
= 2.462 GHz. -/
theorem hop_channel_cycles_check :
    (∀ m, (fun j => if j = 0 then HopErr.beforeTune else HopErr.ok) m ≠ HopErr.afterTune)
      ∧ 2 < (tunedFreqs (CH.hopRunAux (fun j => if j = 0 then HopErr.beforeTune else HopErr.ok)
            0 (CH.jamStartState genU) 4).2).length
      ∧ (tunedFreqs (CH.hopRunAux (fun j => if j = 0 then HopErr.beforeTune else HopErr.ok)
            0 (CH.jamStartState genU) 4).2).getD 2 0
        = channels_24_init.getD (2 % 3) 0
      ∧ (CH.hopRunAux (fun j => if j = 0 then HopErr.beforeTune else HopErr.ok)
            0 (CH.jamStartState genU) 4).1.current_idx
        = (tunedFreqs (CH.hopRunAux (fun j => if j = 0 then HopErr.beforeTune else HopErr.ok)
            0 (CH.jamStartState genU) 4).2).length := by
  have hno : ∀ m, (fun j => if j = 0 then HopErr.beforeTune else HopErr.ok) m
      ≠ HopErr.afterTune := by
    intro m
    dsimp only
    split <;> decide
  have hn : 2 < (tunedFreqs (CH.hopRunAux (fun j => if j = 0 then HopErr.beforeTune else HopErr.ok)
      0 (CH.jamStartState genU) 4).2).length := by decide
  have h := hop_channel_cycles Unit genU
    (fun j => if j = 0 then HopErr.beforeTune else HopErr.ok) 4 2 hno hn
  exact ⟨hno, hn, h.1, h.2⟩

/-- C4: every frequency either `ChannelHopper` implementation ever passes
to `set_tx_freq` — in any run of the hop loop, at every raise point
including exceptions caught after a successful tune — belongs to
`channels_24`, and none belongs to the 5 GHz list `channels_5`. -/
theorem hopper_freqs_in_24ghz (α : Type) (gen : Nat → List α) (errs : Nat → HopErr)
    (k m f g : Nat)
    (hf : f ∈ tunedFreqs (CH.hopRunAux errs 0 (CH.jamStartState gen) k).2)
    (hg : g ∈ tunedFreqs (SCH.hopRun (SCH.startState gen) m).2) :
    (f ∈ channels_24_init ∧ f ∉ channels_5_init)
      ∧ (g ∈ channels_24_init ∧ g ∉ channels_5_init) := by
  obtain ⟨a, ha⟩ :=
    CH.hopRunAux_tuned_mem errs k 0 (CH.jamStartState gen) rfl f hf
  have hs := SCH.hopRun_spec m (SCH.startState gen) rfl rfl
  rw [hs] at hg
  constructor
  · rw [ha]
    exact ch24freq_mem a
  · obtain ⟨b, -, hb⟩ := List.mem_map.mp hg
    rw [← hb]
    exact ch24freq_mem b

/-- C4 witness: in a package run whose first iteration raises after the
tune (so the trace includes a set_tx_freq emitted on an error iteration)
and in a 1-hop standalone run, 2.412 GHz is tuned and is in `channels_24`
but not in `channels_5`. -/
theorem hopper_freqs_in_24ghz_check :
    2412000000 ∈ tunedFreqs (CH.hopRunAux sampleHopErrs 0 (CH.jamStartState genU) 1).2
      ∧ 2412000000 ∈ tunedFreqs (SCH.hopRun (SCH.startState genU) 1).2
      ∧ (2412000000 ∈ channels_24_init ∧ 2412000000 ∉ channels_5_init)
      ∧ (2412000000 ∈ channels_24_init ∧ 2412000000 ∉ channels_5_init) := by
  have hf : 2412000000 ∈ tunedFreqs (CH.hopRunAux sampleHopErrs 0 (CH.jamStartState genU) 1).2 := by
    decide
  have hg : 2412000000 ∈ tunedFreqs (SCH.hopRun (SCH.startState genU) 1).2 := by
    decide
  have h := hopper_freqs_in_24ghz Unit genU sampleHopErrs 1 1 2412000000 2412000000 hf hg
  exact ⟨hf, hg, h.1, h.2⟩

/-- C10: the standalone and the package `ChannelHopper` are hop-equivalent:
from their initial states, an n-hop run of each tunes the identical
frequency sequence `channels_24[0], channels_24[1], channels_24[2],
channels_24[0], ...`, over the same three-element 2.4 GHz list. -/
theorem hoppers_equivalent (α : Type) (gen : Nat → List α) (n : Nat) :
    tunedFreqs (SCH.hopRun (SCH.startState gen) n).2
        = tunedFreqs (CH.hopRunAux (fun _ => HopErr.ok) 0 (CH.jamStartState gen) n).2
      ∧ tunedFreqs (SCH.hopRun (SCH.startState gen) n).2
        = (List.range' 0 n).map (fun j => channels_24_init.getD (j % 3) 0)
      ∧ (SCH.startState gen).channels_24 = (CH.jamStartState gen).channels_24 := by
  have hs := SCH.hopRun_spec n (SCH.startState gen) rfl rfl
  have hc := CH.hopRunAux_noerr n 0 (CH.jamStartState gen) rfl rfl
  have h0s : (SCH.startState gen).current_idx = 0 := rfl
  have h0c : (CH.jamStartState gen).current_idx = 0 := rfl
  rw [h0s] at hs
  rw [h0c] at hc
  refine ⟨hs.trans hc.symm, ?_, rfl⟩
  rw [hs]
  rfl

/-- C2: the Gaussian noise buffer is generated exactly once, during
initialization (`generate_noise(65536)` for `ChannelHopper`,
`generate_noise(1024*1024)` for `Jammer`), and never regenerated or mutated:
no modelled operation after initialization changes the `noise` field, and
every `streamer.send` in the TX loops of `ChannelHopper.jam` and
`Jammer.transmit` sends the same buffer — the init-time noise converted to
complex64. -/
theorem noise_generated_once (α : Type) (c64 : α → α) (gen : Nat → List α)
    (running runningJ : Nat → Bool) (errs errsJ : Nat → Option Exc) (errs2 : Nat → HopErr)
    (k i : Nat) (b bJ : List α) (s : CHState α) (t : JState α)
    (freq : Nat) (rate duration : ℚ) (gain : Int)
    (hb : Event.send b ∈ (CH.jamLoop c64 (CH.jamStartState gen) running errs k).2)
    (hbJ : Event.send bJ ∈ (J.transmit c64 t runningJ errsJ).1) :
    ((CH.init gen false).1 = Except.ok (CH.initState gen)
        ∧ (CH.initState gen).noise = gen 65536)
      ∧ b = (gen 65536).map c64
      ∧ bJ = t.noise.map c64
      ∧ ((J.init (α := α) gen freq rate duration gain none).1
            = Except.ok (J.initState gen freq rate duration gain)
          ∧ (J.initState (α := α) gen freq rate duration gain).noise = gen (1024 * 1024))
      ∧ (CH.setup_tx s false).1 = Except.ok { s with streamer := true }
      ∧ (CH.hopRunAux errs2 i s k).1.noise = s.noise
      ∧ (CH.jamLoop c64 s running errs k).1.noise = s.noise
      ∧ (CH.cleanup s).1.noise = s.noise
      ∧ (CH.signal_handler s).1.noise = s.noise
      ∧ (J.cleanup t).1.noise = t.noise
      ∧ (J.signal_handler t).1.noise = t.noise := by
  refine ⟨⟨rfl, rfl⟩, ?_, ?_, ⟨rfl, rfl⟩, rfl, CH.hopRunAux_noise errs2 k i s, ?_, ?_, ?_, ?_, ?_⟩
  · exact CH.jamLoopAux_send _ running errs k 0 (CH.jamStartState gen) b hb
  · exact J.transmitLoopAux_send_eq _ runningJ errsJ _ 0 bJ hbJ
  · rw [CH.jamLoop, CH.jamLoopAux_state]
  · unfold CH.cleanup
    by_cases hu : (if s.streamer then { s with streamer := false } else s).usrp = true
    · rw [if_pos hu]
      by_cases hs : s.streamer = true <;> simp [hs]
    · rw [if_neg hu]
      by_cases hs : s.streamer = true <;> simp [hs]
  · unfold CH.signal_handler CH.cleanup
    dsimp only
    by_cases hs : s.streamer = true <;> by_cases hu : s.usrp = true <;> simp [hs, hu]
  · unfold J.cleanup
    by_cases hu : t.usrp = true <;> simp [hu]
  · unfold J.signal_handler J.cleanup
    dsimp only
    by_cases hu : t.usrp = true <;> simp [hu]

/-- C2 witness: in a concrete 1-iteration `jam` run and a concrete
5-iteration `transmit` run from `sampleJ`, the sent buffer is the init-time
noise (mapped by the identity complex64 conversion). -/
theorem noise_generated_once_check :
    Event.send (α := Unit) [(), ()]
        ∈ (CH.jamLoop id (CH.jamStartState genU) (fun _ => true) (fun _ => none) 1).2
      ∧ Event.send (α := Unit) [(), ()]
        ∈ (J.transmit id sampleJ (fun _ => true) (fun _ => none)).1
      ∧ [(), ()] = (genU 65536).map id
      ∧ [(), ()] = sampleJ.noise.map id := by
  have h1 : Event.send (α := Unit) [(), ()]
      ∈ (CH.jamLoop id (CH.jamStartState genU) (fun _ => true) (fun _ => none) 1).2 := by
    decide
  have hN : (J.transmissions_needed sampleJ.duration sampleJ.rate sampleJ.noise.length).toNat
      = 5 := by
    show (J.transmissions_needed 1 10 2).toNat = 5
    have harg : (1 : ℚ) / (((2 : ℕ) : ℚ) / 10) = 5 := by norm_num
    unfold J.transmissions_needed
    rw [harg]
    decide
  have h2 : Event.send (α := Unit) [(), ()]
      ∈ (J.transmit id sampleJ (fun _ => true) (fun _ => none)).1 := by
    show Event.send (α := Unit) [(), ()]
      ∈ (J.transmitLoopAux (sampleJ.noise.map id) (fun _ => true) (fun _ => none) 0
          (J.transmissions_needed sampleJ.duration sampleJ.rate sampleJ.noise.length).toNat).1
    rw [hN]
    decide
  have h := noise_generated_once Unit id genU (fun _ => true) (fun _ => true)
    (fun _ => none) (fun _ => none) (fun _ => HopErr.ok) 1 0 [(), ()] [(), ()]
    sampleCH sampleJ 0 0 0 0 h1 h2
  exact ⟨h1, h2, h.2.1, h.2.2.1⟩

/-- C3 counterexample: the claim says every exception raised during a send
in the transmission loops is logged and the loop continues; but in
`Jammer.transmit` the loop catches only `uhd.usrp.UsrpError`.  With 2
iterations to go, `running` true throughout, and the first send raising a
non-UsrpError `Exception`, the loop makes only 1 send call and the exception
propagates out of the loop (re-raised flag `true`) instead of continuing. -/
theorem transmit_other_exception_escapes :
    (J.transmitLoopAux (α := Unit) [] (fun _ => true) (fun _ => some Exc.other) 0 2).2 = true
      ∧ sendCount (J.transmitLoopAux (α := Unit) [] (fun _ => true)
          (fun _ => some Exc.other) 0 2).1 = 1 := by
  exact ⟨rfl, rfl⟩

/-- C3 (amended): exceptions during a hop in `hop_channel` — whether
raised before or after the `set_tx_freq` call — are logged and the loop
continues with all attributes (including `running`) unchanged; exceptions
during a send in `ChannelHopper.jam`'s loop leave the state unchanged and
the loop continues; a `uhd.usrp.UsrpError` during a send in
`Jammer.transmit` is logged and the loop continues with the next iteration,
but any other `Exception` there is logged and re-raised out of the loop;
exceptions during hardware initialization (`init_hardware`, `init_usrp`) or
TX setup (`setup_tx`) are logged and re-raised to the caller. -/
theorem error_policy_amended (α : Type) (gen : Nat → List α) (txbuf : List α)
    (s : CHState α) (running : Nat → Bool)
    (outU outO : Nat → Option Exc) (i k : Nat) (e : Exc)
    (freq : Nat) (rate duration : ℚ) (gain : Int)
    (hrun : running i = true)
    (hU : outU i = some Exc.usrpError)
    (hO : outO i = some Exc.other) :
    CH.hopBody s HopErr.beforeTune = (s, [Event.logError])
      ∧ (CH.hopBody s HopErr.afterTune).1 = s
      ∧ Event.logError ∈ (CH.hopBody s HopErr.afterTune).2
      ∧ (CH.jamBody txbuf s (some e)).1 = s
      ∧ J.transmitLoopAux txbuf running outU i (k + 1)
          = (Event.send txbuf :: Event.logError
                :: (J.transmitLoopAux txbuf running outU (i + 1) k).1,
             (J.transmitLoopAux txbuf running outU (i + 1) k).2)
      ∧ J.transmitLoopAux txbuf running outO i (k + 1)
          = ([Event.send txbuf, Event.logError], true)
      ∧ (CH.init gen true).1 = Except.error Exc.other
      ∧ Event.logError ∈ (CH.init gen true).2
      ∧ (CH.setup_tx s true).1 = Except.error Exc.other
      ∧ (J.init (α := α) gen freq rate duration gain (some e)).1 = Except.error e
      ∧ Event.logError ∈ (J.init (α := α) gen freq rate duration gain (some e)).2 := by
  refine ⟨CH.hopBody_before s, rfl, ?_, CH.jamBody_state txbuf s (some e), ?_, ?_, rfl, ?_,
    rfl, rfl, ?_⟩
  · rw [CH.hopBody_after]
    exact List.mem_cons.mpr (Or.inr (List.mem_singleton.mpr rfl))
  · rw [J.transmitLoopAux_succ, if_pos hrun, hU]
  · rw [J.transmitLoopAux_succ, if_pos hrun, hO]
  · rw [CH.init, if_pos rfl]
    exact List.mem_singleton.mpr rfl
  · rw [J.init]
    exact List.mem_singleton.mpr rfl

/-- C3 amended-claim witness: at concrete inputs, a hop exception at
either raise point leaves the state unchanged and logs; a UsrpError at
the first transmit iteration still lets the loop continue (re-raised flag
false); a non-UsrpError raises out; a failed init is an error. -/
theorem error_policy_amended_check :
    CH.hopBody sampleCH HopErr.beforeTune = (sampleCH, [Event.logError])
      ∧ (CH.hopBody sampleCH HopErr.afterTune).1 = sampleCH
      ∧ J.transmitLoopAux (α := Unit) [] (fun _ => true) (fun _ => some Exc.usrpError) 0 1
          = (Event.send [] :: Event.logError
                :: (J.transmitLoopAux (α := Unit) [] (fun _ => true)
                    (fun _ => some Exc.usrpError) 1 0).1,
             (J.transmitLoopAux (α := Unit) [] (fun _ => true)
                 (fun _ => some Exc.usrpError) 1 0).2)
      ∧ J.transmitLoopAux (α := Unit) [] (fun _ => true) (fun _ => some Exc.other) 0 1
          = ([Event.send [], Event.logError], true)
      ∧ (CH.init genU true).1 = Except.error Exc.other := by
  have h := error_policy_amended Unit genU [] sampleCH (fun _ => true)
    (fun _ => some Exc.usrpError) (fun _ => some Exc.other) 0 0 Exc.other
    0 0 0 0 rfl rfl rfl
  exact ⟨h.1, h.2.1, h.2.2.2.2.1, h.2.2.2.2.2.1, h.2.2.2.2.2.2.1⟩

/-- C5: `Jammer.transmit` terminates — its loop is the bounded
`for i in range(transmissions_needed)` with
`transmissions_needed = int(duration / (len(noise) / rate))`, so for
`duration ≥ 0`, `rate > 0` and a non-empty noise buffer, the number of
`streamer.send` calls is at most `⌊duration * rate / len(noise)⌋` (and the
two bounds agree), even when individual sends raise and are retried; and
the loop stops early whenever `running` becomes false: if `running` is
false by iteration `j`, at most `j` sends are made. -/
theorem transmit_send_bound (α : Type) (c64 : α → α) (s : JState α)
    (running : Nat → Bool) (outcome : Nat → Option Exc)
    (hd : 0 ≤ s.duration) (hr : 0 < s.rate) (hn : s.noise.length ≠ 0) :
    sendCount (J.transmit c64 s running outcome).1
        ≤ (J.transmissions_needed s.duration s.rate s.noise.length).toNat
      ∧ (J.transmissions_needed s.duration s.rate s.noise.length).toNat
        = (⌊s.duration * s.rate / (s.noise.length : ℚ)⌋).toNat
      ∧ ∀ j, running j = false →
          sendCount (J.transmit c64 s running outcome).1 ≤ j := by
  refine ⟨?_, ?_, ?_⟩
  · exact J.transmitLoopAux_count_le (s.noise.map c64) running outcome
      (J.transmissions_needed s.duration s.rate s.noise.length).toNat 0
  · have hq : s.duration / ((s.noise.length : ℚ) / s.rate)
        = s.duration * s.rate / (s.noise.length : ℚ) := div_div_eq_mul_div _ _ _
    have hpos : 0 ≤ s.duration * s.rate / (s.noise.length : ℚ) :=
      div_nonneg (mul_nonneg hd (le_of_lt hr)) (Nat.cast_nonneg _)
    unfold J.transmissions_needed pyInt
    rw [hq, if_pos hpos]
  · intro j hj
    have := J.transmitLoopAux_stop (s.noise.map c64) running outcome j hj
      (J.transmissions_needed s.duration s.rate s.noise.length).toNat 0 (Nat.zero_le j)
    simpa using this

/-- C5 witness: for `sampleJ` (duration 1, rate 10, 2-sample buffer) the
bound is `⌊1 * 10 / 2⌋ = 5`; with `running` turning false at iteration 2
the loop makes at most 2 sends. -/
theorem transmit_send_bound_check :
    ((0 : ℚ) ≤ sampleJ.duration ∧ (0 : ℚ) < sampleJ.rate ∧ sampleJ.noise.length ≠ 0)
      ∧ sendCount (J.transmit id sampleJ (fun i => decide (i < 2)) (fun _ => none)).1
          ≤ (J.transmissions_needed sampleJ.duration sampleJ.rate sampleJ.noise.length).toNat
      ∧ (J.transmissions_needed sampleJ.duration sampleJ.rate sampleJ.noise.length).toNat
          = (⌊sampleJ.duration * sampleJ.rate / (sampleJ.noise.length : ℚ)⌋).toNat
      ∧ sendCount (J.transmit id sampleJ (fun i => decide (i < 2)) (fun _ => none)).1 ≤ 2 := by
  have hd : (0 : ℚ) ≤ sampleJ.duration := by
    show (0 : ℚ) ≤ 1
    norm_num
  have hr : (0 : ℚ) < sampleJ.rate := by
    show (0 : ℚ) < 10
    norm_num
  have hn : sampleJ.noise.length ≠ 0 := by decide
  have h := transmit_send_bound Unit id sampleJ (fun i => decide (i < 2)) (fun _ => none)
    hd hr hn
  exact ⟨⟨hd, hr, hn⟩, h.1, h.2.1, h.2.2 2 rfl⟩

/-- C6: on SIGINT/SIGTERM both signal handlers set `running` to false,
run cleanup — which attempts `set_tx_gain(0, 0)` whenever a USRP device
object exists — and exit the process with status 0. -/
theorem signal_handler_cleanup (α : Type) (s : CHState α) (t : JState α)
    (hs : s.usrp = true) (ht : t.usrp = true) :
    (CH.signal_handler s).1.running = false
      ∧ (CH.signal_handler s).2.2 = 0
      ∧ Event.setTxGain 0 0 ∈ (CH.signal_handler s).2.1
      ∧ (J.signal_handler t).1.running = false
      ∧ (J.signal_handler t).2.2 = 0
      ∧ Event.setTxGain 0 0 ∈ (J.signal_handler t).2.1 := by
  by_cases hst : s.streamer = true <;>
    simp [CH.signal_handler, CH.cleanup, J.signal_handler, J.cleanup, hst, hs, ht]

/-- C6 witness: concrete states with a USRP device object present. -/
theorem signal_handler_cleanup_check :
    sampleCH.usrp = true ∧ sampleJ.usrp = true
      ∧ (CH.signal_handler sampleCH).1.running = false
      ∧ Event.setTxGain 0 0 ∈ (CH.signal_handler sampleCH).2.1
      ∧ (J.signal_handler sampleJ).2.2 = 0
      ∧ Event.setTxGain 0 0 ∈ (J.signal_handler sampleJ).2.1 := by
  have h := signal_handler_cleanup Unit sampleCH sampleJ rfl rfl
  exact ⟨rfl, rfl, h.1, h.2.2.1, h.2.2.2.2.1, h.2.2.2.2.2⟩

/-- C7: the channel-frequency tables are consistent: `WIFI_CHANNELS` maps
`ch<i>` to `2.412e9 + (i-1)*5e6` for `1 ≤ i ≤ 14`, to
`5.180e9 + (i-36)*20e6` for `36 ≤ i ≤ 64`, and to `5.745e9 + (i-149)*20e6`
for `149 ≤ i ≤ 165`; the CLI channel map of jammer.py agrees with
`WIFI_CHANNELS` on each of its keys ch1, ch6, ch11, ch36, ch149; and
`channels_24` equals `[WIFI_CHANNELS[ch1], WIFI_CHANNELS[ch6],
WIFI_CHANNELS[ch11]]`. -/
theorem wifi_channel_tables :
    (∀ i ∈ List.range' 1 14,
        WIFI_CHANNELS.lookup (chKey i) = some (2412000000 + (i - 1) * 5000000))
      ∧ (∀ i ∈ List.range' 36 29,
          WIFI_CHANNELS.lookup (chKey i) = some (5180000000 + (i - 36) * 20000000))
      ∧ (∀ i ∈ List.range' 149 17,
          WIFI_CHANNELS.lookup (chKey i) = some (5745000000 + (i - 149) * 20000000))
      ∧ (∀ p ∈ cli_channels, WIFI_CHANNELS.lookup p.1 = some p.2)
      ∧ channels_24_init
        = [(WIFI_CHANNELS.lookup (chKey 1)).getD 0, (WIFI_CHANNELS.lookup (chKey 6)).getD 0,
           (WIFI_CHANNELS.lookup (chKey 11)).getD 0] := by
  refine ⟨by decide, by decide, by decide, by decide, by decide⟩

/-- C7 witness: instances of the table laws at ch6 (2.437 GHz) and the CLI
key ch149 (5.745 GHz). -/
theorem wifi_channel_tables_check :
    WIFI_CHANNELS.lookup (chKey 6) = some (2412000000 + (6 - 1) * 5000000)
      ∧ WIFI_CHANNELS.lookup "ch149" = some 5745000000 := by
  have h := wifi_channel_tables
  exact ⟨h.1 6 (by decide), h.2.2.2.1 ("ch149", 5745000000) (by decide)⟩

/-- C8: with the default bands, `validate_frequency f` returns
`(True, '2.4GHz')` iff `2.4e9 ≤ f ≤ 2.5e9`, returns `(True, '5GHz')` iff
`f` is not in the 2.4 GHz band and `5.0e9 ≤ f ≤ 6.0e9`, and returns
`(False, None)` otherwise; the function is total, so it never raises. -/
theorem validate_frequency_spec (f : ℚ) :
    (validate_frequency f = (true, some "2.4GHz")
        ↔ (2400000000 ≤ f ∧ f ≤ 2500000000))
      ∧ (validate_frequency f = (true, some "5GHz")
          ↔ (¬(2400000000 ≤ f ∧ f ≤ 2500000000) ∧ 5000000000 ≤ f ∧ f ≤ 6000000000))
      ∧ (validate_frequency f = (false, none)
          ↔ (¬(2400000000 ≤ f ∧ f ≤ 2500000000)
              ∧ ¬(5000000000 ≤ f ∧ f ≤ 6000000000))) := by
  unfold validate_frequency default_bands
  by_cases h1 : (2400000000 : ℚ) ≤ f ∧ f ≤ 2500000000
  · simp only [List.find?, decide_eq_true_eq]
    rw [decide_eq_true h1]
    simp [h1]
  · by_cases h2 : (5000000000 : ℚ) ≤ f ∧ f ≤ 6000000000
    · simp only [List.find?]
      rw [decide_eq_false h1, decide_eq_true h2]
      simp [h1, h2]
    · simp only [List.find?]
      rw [decide_eq_false h1, decide_eq_false h2]
      simp [h1, h2]

/-- C8 witness: 2.437 GHz is reported in band '2.4GHz', and 3 GHz is
rejected. -/
theorem validate_frequency_spec_check :
    validate_frequency 2437000000 = (true, some "2.4GHz")
      ∧ validate_frequency 3000000000 = (false, none) := by
  constructor
  · exact (validate_frequency_spec 2437000000).1.mpr (by norm_num)
  · exact (validate_frequency_spec 3000000000).2.2.mpr (by norm_num)

/-- C9: `get_wifi_channels '2.4GHz'` and `get_wifi_channels '5GHz'`
partition `WIFI_CHANNELS`: they are disjoint and together give back the
full table, because every key `ch<i>` has `i ≤ 14` or `i ≥ 36`; for any
other band argument the full table is returned unchanged. -/
theorem get_wifi_channels_partition :
    get_wifi_channels "2.4GHz" ++ get_wifi_channels "5GHz" = WIFI_CHANNELS
      ∧ (∀ kv ∈ get_wifi_channels "2.4GHz", kv ∉ get_wifi_channels "5GHz")
      ∧ (∀ kv ∈ WIFI_CHANNELS, chNum kv.1 ≤ 14 ∨ 36 ≤ chNum kv.1)
      ∧ ∀ band : String, band ≠ "2.4GHz" → band ≠ "5GHz" →
          get_wifi_channels band = WIFI_CHANNELS := by
  refine ⟨by decide, by decide, by decide, ?_⟩
  intro band hb1 hb2
  unfold get_wifi_channels
  rw [if_neg hb1, if_neg hb2]

/-- C9 witness: the 2.4 GHz slice contains ch6 and the 5 GHz slice does
not; an unknown band name returns the full table. -/
theorem get_wifi_channels_partition_check :
    ("ch6", (2437000000 : Nat)) ∈ get_wifi_channels "2.4GHz"
      ∧ ("ch6", (2437000000 : Nat)) ∉ get_wifi_channels "5GHz"
      ∧ get_wifi_channels "all" = WIFI_CHANNELS := by
  have hm : ("ch6", (2437000000 : Nat)) ∈ get_wifi_channels "2.4GHz" := by decide
  have h := get_wifi_channels_partition
  exact ⟨hm, h.2.1 _ hm, h.2.2.2 "all" (by decide) (by decide)⟩
